import Mathlib

/-!
Shallow embedding of `app.py`, a single-file Flask service that downloads videos
with yt-dlp. The download directory is modelled as a list of directory entries
with stat metadata, the in-memory `download_status` map as an association list,
and the yt-dlp adapter as explicit outcome parameters (metadata result, download
result). Machine-level details that no statement here depends on (float progress
percentages, uuid generation, wall-clock timestamps, log output) are abstracted:
progress and timestamps are naturals, uuids are left implicit in constructors.
The adapter is assumed deterministic per URL, so the metadata re-query performed
by the async worker receives the same outcome as the route handler's query.
-/

namespace YtDl

/-! ## Data model -/

/-- One directory entry of the download folder (`static/downloads`) together
with the stat metadata the code reads: `os.path.isfile`, `os.path.getsize`,
`os.path.getctime`. Paths are modelled as basenames. -/
structure FileEntry where
  path : String
  isFile : Bool
  size : Nat
  ctime : Nat
deriving DecidableEq

/-- State of the download directory: the entries `glob.glob(DOWNLOAD_FOLDER/*)` returns. -/
abbrev FS := List FileEntry

/-- Job states. The code stores the status strings `downloading`, `completed`,
`error` (app.py lines 134, 231, 242); `pending` is the extra state named by the
spec's Job state machine and is included so that spec-level statements about it
can be expressed. -/
inductive JobState
  | pending
  | downloading
  | completed
  | error
deriving DecidableEq

/-- One entry of the `download_status` map (app.py lines 134-141): the fields the
code stores under a download id. `error_msg` models the entry's `error` field. -/
structure Job where
  state : JobState
  progress : Nat
  filename : Option String
  title : Option String
  error_msg : Option String
  timestamp : Nat
deriving DecidableEq

/-- The global `download_status` map (app.py line 26), as an association list
from download id to job record. -/
abbrev Tracker := List (String × Job)

/-! ## sanitize_filename (app.py lines 28-41) -/

/-- Characters removed outright by the first substitution in `sanitize_filename`
(the regex class of path-unsafe characters, app.py line 31). -/
def badChars : List Char := ['\\', '/', '*', '?', ':', '"', '<', '>', '|']

/-- Characters replaced by an underscore by the second substitution (the regex
class of whitespace and brackets, app.py line 33); whitespace is the ASCII part
of the regex class. -/
def spaceBracketChars : List Char :=
  [' ', '\t', '\n', '\r', '\x0b', '\x0c', '[', ']', '(', ')', '\x7b', '\x7d']

/-- Step 1 of `sanitize_filename`: drop every path-unsafe character. -/
def removeBadChars (cs : List Char) : List Char :=
  cs.filter (fun c => !badChars.contains c)

/-- Step 2 of `sanitize_filename`: replace whitespace and bracket characters by
underscores. -/
def replaceSpaces (cs : List Char) : List Char :=
  cs.map (fun c => if spaceBracketChars.contains c then '_' else c)

/-- Step 3 of `sanitize_filename`: collapse each run of underscores to a single
underscore (the substitution of the regex of repeated underscores, app.py line 35). -/
def collapseUnderscores : List Char → List Char
  | [] => []
  | [c] => [c]
  | c1 :: c2 :: rest =>
    if c1 == '_' && c2 == '_' then collapseUnderscores (c2 :: rest)
    else c1 :: collapseUnderscores (c2 :: rest)

/-- The characters stripped from both ends in step 4 (python `strip` with
argument underscore-dot, app.py line 37). -/
def stripSet (c : Char) : Bool := c == '_' || c == '.'

/-- Step 4 of `sanitize_filename`: python `str.strip` removes the leading and
trailing characters belonging to `stripSet`. -/
def stripEnds (cs : List Char) : List Char :=
  ((cs.dropWhile stripSet).reverse.dropWhile stripSet).reverse

/-- Model of `sanitize_filename` (app.py lines 28-41): the four rewriting steps,
then the fallback to the placeholder name when the result is empty. -/
def sanitize_filename (s : String) : String :=
  let cs := stripEnds (collapseUnderscores (replaceSpaces (removeBadChars s.data)))
  if cs.isEmpty then "video" else String.mk cs

/-! ## Storage reclaimer (app.py lines 56-129) and file listing -/

/-- Effect of `os.remove` on the modelled directory: the entry with the given
path disappears. -/
def removeFile (fs : FS) (p : String) : FS :=
  fs.filter (fun e => e.path != p)

/-- The regular files of the directory: `glob` plus the `os.path.isfile` filter
(app.py lines 109-110, also lines 559-560). -/
def listDirFiles (fs : FS) : FS :=
  fs.filter (fun e => e.isFile)

/-- Return value of `aggressive_cleanup` (app.py lines 96-100). -/
structure CleanupReport where
  files_deleted : Nat
  size_freed : Nat
  status_cleared : Nat
deriving DecidableEq

/-- One iteration of the deletion loop of `aggressive_cleanup` (app.py lines
71-80): skip non-files; delete a file and update the counters, unless `os.remove`
raises `OSError` for its path (modelled by membership in `faults`), in which case
the error is logged and the file skipped. -/
def cleanupStep (faults : List String) (acc : FS × Nat × Nat) (e : FileEntry) :
    FS × Nat × Nat :=
  if e.isFile && !faults.contains e.path then
    (removeFile acc.1 e.path, acc.2.1 + 1, acc.2.2 + e.size)
  else acc

/-- Model of `aggressive_cleanup` (app.py lines 56-104): iterate the deletion
loop over the globbed entries, then clear the whole `download_status` map.
Returns the new directory state, the new tracker (always empty, line 84), and
the report. -/
def aggressive_cleanup (faults : List String) (fs : FS) (tracker : Tracker) :
    FS × Tracker × CleanupReport :=
  let r := fs.foldl (cleanupStep faults) (fs, 0, 0)
  (r.1, [], ⟨r.2.1, r.2.2, tracker.length⟩)

/-- Comparison key of the sort in `clean_up_old_files` (app.py line 114):
creation time, ascending. -/
def ctimeLE (a b : FileEntry) : Prop := a.ctime ≤ b.ctime

instance : DecidableRel ctimeLE := fun a b => Nat.decLe a.ctime b.ctime

instance : IsTotal FileEntry ctimeLE := ⟨fun a b => Nat.le_total a.ctime b.ctime⟩

instance : IsTrans FileEntry ctimeLE := ⟨fun _ _ _ => Nat.le_trans⟩

instance : IsRefl FileEntry ctimeLE := ⟨fun a => Nat.le_refl a.ctime⟩

/-- The file list of `clean_up_old_files` after the sort by creation time
ascending (app.py line 114). Python's sort is stable; a stable sort under a
total preorder is unique, so it is modelled by the stable `insertionSort`. -/
def sortedByCtime (fs : FS) : FS :=
  (listDirFiles fs).insertionSort ctimeLE

/-- Model of `clean_up_old_files` (app.py lines 106-129), the retention-policy
cleanup with parameter `limit` (python default 1; an int, so it may be
non-positive, which the code's `if limit > 0 else` branch handles). When at
least `limit` regular files exist, it sorts them by creation time and deletes
all but the last (`files[:-1]`), or all of them when `limit` is non-positive; a
path in `faults` raises `OSError` on removal, which is caught per file, logged,
and skipped. -/
def clean_up_old_files (faults : List String) (limit : Int) (fs : FS) : FS :=
  if limit ≤ ((listDirFiles fs).length : Int) then
    (if 0 < limit then (sortedByCtime fs).dropLast else sortedByCtime fs).foldl
      (fun acc f => if faults.contains f.path then acc else removeFile acc f.path) fs
  else fs

/-- One artifact record of the GET /api/list response (app.py lines 569-575). -/
structure FileInfo where
  filename : String
  size : Nat
  created : Nat
deriving DecidableEq

/-- Model of the GET /api/list handler `list_files` (app.py lines 555-589): the
per-file records for every regular file of the download directory. -/
def list_files (fs : FS) : List FileInfo :=
  (listDirFiles fs).map (fun e => ⟨e.path, e.size, e.ctime⟩)

/-! ## Adapter outcomes and the async worker (app.py lines 131-269) -/

/-- Outcome of the adapter metadata query (`extract_info` with download=False).
A duration of 0 encodes a missing or null `duration` field, exactly as the
code's `info.get` with default 0 does (app.py lines 206, 315). -/
inductive InfoResult
  | ok (title : String) (duration : Nat)
  | err (msg : String)
deriving DecidableEq

/-- Outcome of one adapter download call (`ydl.download`): either it returns and
`found` lists the files matching the unique-id glob pattern afterwards, or it
raises a `yt_dlp.DownloadError`, or some other exception. -/
inductive DlOutcome
  | files (found : List FileEntry)
  | dlErr (msg : String)
  | exn (msg : String)
deriving DecidableEq

/-- Disk-usage guard of the async worker: `disk_info and disk_info.percent > 85`
(app.py line 147); `none` models a failed `psutil` query, which passes the guard. -/
def diskOver85 (p : Option Nat) : Bool :=
  match p with
  | some v => decide (85 < v)
  | none => false

/-- Disk-usage guard of the download route: `disk_info and disk_info.percent > 90`
(app.py line 291). -/
def diskOver90 (p : Option Nat) : Bool :=
  match p with
  | some v => decide (90 < v)
  | none => false

/-- The user-friendly rewriting applied to `yt_dlp.DownloadError` messages
(app.py lines 246-254). -/
def friendlyError (msg : String) : String :=
  if msg.containsSubstr ("Video unavailable") then "Video is unavailable or private"
  else if msg.containsSubstr ("Sign in to confirm your age") then
    "Video requires age verification"
  else if msg.containsSubstr ("Private video") then "Video is private"
  else msg

/-- The error message recorded when the reported duration exceeds the async cap
(app.py lines 209-210 wrapped by the generic handler of lines 261-266). -/
def durationExceededMsg (d : Nat) : String :=
  "Download failed: Video too long (" ++ toString d ++ "s). Maximum allowed: 600s"

/-- The error message recorded when the worker's disk guard fires (app.py line
148 wrapped by the generic handler); the percent is rendered as a natural. -/
def diskSpaceMsg (p : Nat) : String :=
  "Download failed: Insufficient disk space: " ++ toString p ++ "% used"

/-- Result of one run of the async worker: the final job record left in the
tracker, the ordered list of values the worker wrote to the job's status field
(its complete state history), whether the `ydl.download` call was reached, and
the files that call created. -/
structure WorkerRun where
  finalJob : Job
  states : List JobState
  downloadAttempted : Bool
  artifacts : List FileEntry
deriving DecidableEq

/-- Model of the async worker `download_video_async` (app.py lines 131-269).
The worker first writes a `downloading` record (lines 134-141), checks the disk
guard, re-queries the adapter for metadata, enforces the 600-second duration cap
on a truthy duration (line 209), sets the title, runs the download, and finally
writes exactly one terminal record: `completed` when a file matching the glob
pattern exists, `error` otherwise or on any exception (lines 230-266). Progress
values and timestamps are abstracted to 0/100 and 0. -/
def download_video_async (workerDisk : Option Nat) (info : InfoResult)
    (dl : DlOutcome) : WorkerRun :=
  if diskOver85 workerDisk then
    let p := match workerDisk with | some v => v | none => 0
    ⟨⟨.error, 0, none, none, some (diskSpaceMsg p), 0⟩, [.downloading, .error], false, []⟩
  else
    match info with
    | .err m =>
      ⟨⟨.error, 0, none, none, some (friendlyError m), 0⟩, [.downloading, .error], false, []⟩
    | .ok title d =>
      if d ≠ 0 ∧ 600 < d then
        ⟨⟨.error, 0, none, none, some (durationExceededMsg d), 0⟩,
         [.downloading, .error], false, []⟩
      else
        match dl with
        | .files (f :: rest) =>
          ⟨⟨.completed, 100, some f.path, some title, none, 0⟩,
           [.downloading, .completed], true, f :: rest⟩
        | .files [] =>
          ⟨⟨.error, 0, none, some title, some ("Download completed but file not found"), 0⟩,
           [.downloading, .error], true, []⟩
        | .dlErr m =>
          ⟨⟨.error, 0, none, some title, some (friendlyError m), 0⟩,
           [.downloading, .error], true, []⟩
        | .exn m =>
          ⟨⟨.error, 0, none, some title, some ("Download failed: " ++ m), 0⟩,
           [.downloading, .error], true, []⟩

/-! ## The POST /api/download route (app.py lines 277-431) -/

/-- The HTTP-level outcome of a POST /api/download request. `asyncStarted`
carries the run of the spawned worker: at the HTTP level it is the immediate
success response with a fresh `download_id` and a status url (app.py lines
418-427); the carried `WorkerRun` is what the spawned thread eventually does. -/
inductive FlowResult
  | badRequest
  | insufficientStorage
  | syncOk (filename : String) (title : String) (size : Nat)
  | asyncStarted (worker : WorkerRun)
deriving DecidableEq

/-- Which handler the route dispatched the request to. -/
inductive Route
  | rejected
  | syncPath
  | asyncPath
deriving DecidableEq

/-- Model of `handle_async_download` (app.py lines 401-431): spawn the worker
thread and return the job-identifier response immediately. Thread creation is
assumed to succeed, so the failure branch of line 431 is unreachable here. -/
def handle_async_download (info : InfoResult) (workerDisk : Option Nat)
    (asyncDl : DlOutcome) : FlowResult :=
  .asyncStarted (download_video_async workerDisk info asyncDl)

/-- Model of `handle_sync_download` (app.py lines 334-399): run the download
inline; on a found output file return the artifact reference directly; on any
failure (adapter error, or no file matching the glob pattern, line 391) fall
back to `handle_async_download`. -/
def handle_sync_download (info : InfoResult) (title : String) (syncDl : DlOutcome)
    (workerDisk : Option Nat) (asyncDl : DlOutcome) : FlowResult :=
  match syncDl with
  | .files (f :: _) => .syncOk f.path title f.size
  | .files [] => handle_async_download info workerDisk asyncDl
  | .dlErr _ => handle_async_download info workerDisk asyncDl
  | .exn _ => handle_async_download info workerDisk asyncDl

/-- Everything observable about one POST /api/download request: the response,
the tracker state immediately after the initial `aggressive_cleanup` step, and
which handler the route dispatched to. -/
structure RequestRun where
  response : FlowResult
  trackerAfterCleanup : Tracker
  routed : Route
deriving DecidableEq

/-- Model of the POST /api/download handler `download_video` (app.py lines
277-332). Inputs: `urlOk` is the truthiness of the request body's url; `faults`,
`fs`, `tracker` the environment of the initial cleanup; `diskPercent` the disk
usage read after cleanup; `info` the metadata query outcome; `syncDl` the
outcome a synchronous download attempt would have; `workerDisk` and `asyncDl`
the environment an async worker would see. The handler checks the url, runs
`aggressive_cleanup`, checks disk usage, queries metadata, and routes: a truthy
duration of at most 180 goes to the sync handler, everything else (including a
failed metadata query, lines 328-332) to the async handler. -/
def download_video (urlOk : Bool) (faults : List String) (fs : FS)
    (tracker : Tracker) (diskPercent : Option Nat) (info : InfoResult)
    (syncDl : DlOutcome) (workerDisk : Option Nat) (asyncDl : DlOutcome) :
    RequestRun :=
  if !urlOk then ⟨.badRequest, tracker, .rejected⟩
  else if diskOver90 diskPercent then
    ⟨.insufficientStorage, (aggressive_cleanup faults fs tracker).2.1, .rejected⟩
  else
    match info with
    | .err _ =>
      ⟨handle_async_download info workerDisk asyncDl,
       (aggressive_cleanup faults fs tracker).2.1, .asyncPath⟩
    | .ok title d =>
      if d ≠ 0 ∧ d ≤ 180 then
        ⟨handle_sync_download info title syncDl workerDisk asyncDl,
         (aggressive_cleanup faults fs tracker).2.1, .syncPath⟩
      else
        ⟨handle_async_download info workerDisk asyncDl,
         (aggressive_cleanup faults fs tracker).2.1, .asyncPath⟩

/-- Predicate on a sync download outcome: the attempt failed (adapter exception
or no output file found), i.e. the cases in which `handle_sync_download`
reaches its except branch (app.py lines 393-397). -/
def syncFailed : DlOutcome → Bool
  | .files [] => true
  | .files (_ :: _) => false
  | .dlErr _ => true
  | .exn _ => true

/-! ## Status endpoint (app.py lines 434-452) -/

/-- Response of the GET /api/status endpoint: 404 or the job record (in the code
the 200 body also carries a download url and disk telemetry, which add nothing
to the record). -/
inductive StatusResp
  | notFound
  | ok (j : Job)
deriving DecidableEq

/-- Model of the GET /api/status handler `get_download_status` (app.py lines
434-452): look the id up in `download_status`; 404 when absent. The tracker is
returned unchanged, as the handler never writes to the map. -/
def get_download_status (tracker : Tracker) (id : String) : StatusResp × Tracker :=
  match tracker.lookup id with
  | none => (.notFound, tracker)
  | some j => (.ok j, tracker)

/-- Concrete file entries used by the concrete-input theorems. -/
def fileA : FileEntry := ⟨"a.mp4", true, 5, 10⟩

/-- Second concrete file entry, newer than `fileA`. -/
def fileB : FileEntry := ⟨"b.mp4", true, 7, 20⟩

/-! ## Helper lemmas -/

/-- Membership after the deletion loop of `aggressive_cleanup`: an entry
survives the loop over `ts` exactly when no regular file of `ts` whose removal
does not fault shares its path. -/
theorem mem_cleanup_foldl (faults : List String) :
    ∀ (ts : List FileEntry) (fs : FS) (n m : Nat) (e : FileEntry),
      e ∈ (ts.foldl (cleanupStep faults) (fs, n, m)).1
        ↔ e ∈ fs ∧ ∀ f ∈ ts, f.isFile = true → faults.contains f.path = false →
            f.path ≠ e.path := by
  intro ts
  induction ts with
  | nil => intro fs n m e; simp
  | cons t ts ih =>
    intro fs n m e
    by_cases h : (t.isFile && !faults.contains t.path) = true
    · rw [List.foldl_cons,
        show cleanupStep faults (fs, n, m) t = (removeFile fs t.path, n + 1, m + t.size) from
          by unfold cleanupStep; rw [if_pos h],
        ih]
      have h1 : t.isFile = true := by
        cases hx : t.isFile
        · rw [hx] at h; simp at h
        · rfl
      have h2 : faults.contains t.path = false := by
        cases hx : faults.contains t.path
        · rfl
        · rw [hx] at h; simp at h
      unfold removeFile
      simp only [List.mem_filter, bne_iff_ne, List.mem_cons, ne_eq]
      constructor
      · rintro ⟨⟨he, hne⟩, hall⟩
        refine ⟨he, ?_⟩
        intro f hf
        rcases hf with rfl | hf
        · intro _ _; exact fun hp => hne hp.symm
        · exact hall f hf
      · rintro ⟨he, hall⟩
        refine ⟨⟨he, ?_⟩, fun f hf => hall f (Or.inr hf)⟩
        intro hp
        exact hall t (Or.inl rfl) h1 h2 hp.symm
    · rw [List.foldl_cons,
        show cleanupStep faults (fs, n, m) t = (fs, n, m) from
          by unfold cleanupStep; rw [if_neg h],
        ih]
      simp only [List.mem_cons]
      constructor
      · rintro ⟨he, hall⟩
        refine ⟨he, ?_⟩
        intro f hf
        rcases hf with rfl | hf
        · intro hfile hnf
          rw [hfile, hnf] at h
          simp at h
        · exact hall f hf
      · rintro ⟨he, hall⟩
        exact ⟨he, fun f hf => hall f (Or.inr hf)⟩

/-- Membership after the deletion loop of `clean_up_old_files`: an entry
survives exactly when no target of `ts` whose removal does not fault shares its
path. -/
theorem mem_cleanup_old_foldl (faults : List String) :
    ∀ (ts : List FileEntry) (fs : FS) (e : FileEntry),
      e ∈ ts.foldl
            (fun acc f => if faults.contains f.path then acc else removeFile acc f.path) fs
        ↔ e ∈ fs ∧ ∀ f ∈ ts, faults.contains f.path = false → f.path ≠ e.path := by
  intro ts
  induction ts with
  | nil => intro fs e; simp
  | cons t ts ih =>
    intro fs e
    rw [List.foldl_cons]
    by_cases h : faults.contains t.path = true
    · rw [if_pos h]
      rw [ih]
      simp only [List.mem_cons]
      constructor
      · rintro ⟨he, hall⟩
        refine ⟨he, ?_⟩
        intro f hf
        rcases hf with rfl | hf
        · intro hnf; exact absurd h (by rw [hnf]; exact Bool.false_ne_true)
        · exact hall f hf
      · rintro ⟨he, hall⟩
        exact ⟨he, fun f hf => hall f (Or.inr hf)⟩
    · rw [if_neg h]
      rw [ih]
      rw [Bool.not_eq_true] at h
      unfold removeFile
      simp only [List.mem_filter, bne_iff_ne, List.mem_cons, ne_eq]
      constructor
      · rintro ⟨⟨he, hne⟩, hall⟩
        refine ⟨he, ?_⟩
        intro f hf
        rcases hf with rfl | hf
        · intro _; exact fun hp => hne hp.symm
        · exact hall f hf
      · rintro ⟨he, hall⟩
        refine ⟨⟨he, ?_⟩, fun f hf => hall f (Or.inr hf)⟩
        intro hp
        exact hall t (Or.inl rfl) h hp.symm

/-! ## Claim theorems -/

/-- C5: for every state of the download directory and tracker, running the
reclaim-all operation (`aggressive_cleanup`) and then immediately the list
operation (`list_files`) returns an empty artifact set. -/
theorem reclaimAll_then_list_empty (fs : FS) (tracker : Tracker) :
    list_files (aggressive_cleanup [] fs tracker).1 = [] := by
  unfold list_files
  suffices h : listDirFiles (aggressive_cleanup [] fs tracker).1 = [] by
    rw [h]; rfl
  unfold listDirFiles
  rw [List.filter_eq_nil_iff]
  intro e he hfile
  unfold aggressive_cleanup at he
  simp only at he
  obtain ⟨hfs, hall⟩ := (mem_cleanup_foldl [] fs fs 0 0 e).mp he
  exact hall e hfs hfile rfl rfl

/-- C5 instance: the theorem applied at a concrete directory with two files and
a tracked job. -/
theorem reclaimAll_then_list_empty_instance :
    list_files (aggressive_cleanup [] [fileA, fileB]
        [(("j1"), ⟨.downloading, 0, none, none, none, 0⟩)]).1 = [] :=
  reclaimAll_then_list_empty [fileA, fileB] [(("j1"), ⟨.downloading, 0, none, none, none, 0⟩)]

/-- C8: a status query for a job identifier absent from the tracker returns the
404 not-found response and leaves the tracker unchanged. -/
theorem status_unknown_not_found (tracker : Tracker) (id : String)
    (h : tracker.lookup id = none) :
    get_download_status tracker id = (.notFound, tracker) := by
  unfold get_download_status
  rw [h]

/-- C8 instance: the theorem applied to a nonempty tracker and a fresh id. -/
theorem status_unknown_not_found_instance :
    get_download_status [(("j1"), ⟨.completed, 100, none, none, none, 0⟩)] ("j2")
      = (.notFound, [(("j1"), ⟨.completed, 100, none, none, none, 0⟩)]) :=
  status_unknown_not_found [(("j1"), ⟨.completed, 100, none, none, none, 0⟩)] ("j2") rfl

/-- C9: every invocation of the reclaim-all operation leaves the job tracker
empty, every job id is then unknown to a status query (404), and the
POST /api/download handler (when given a url) has performed exactly that
cleanup: its tracker state right after the initial cleanup step is empty. -/
theorem reclaimAll_clears_tracker (faults : List String) (fs : FS)
    (tracker : Tracker) (disk : Option Nat) (info : InfoResult) (syncDl : DlOutcome)
    (wd : Option Nat) (asyncDl : DlOutcome) :
    (aggressive_cleanup faults fs tracker).2.1 = [] ∧
    (∀ id, (get_download_status (aggressive_cleanup faults fs tracker).2.1 id).1
        = .notFound) ∧
    (download_video true faults fs tracker disk info syncDl wd asyncDl).trackerAfterCleanup
        = [] := by
  refine ⟨rfl, fun id => rfl, ?_⟩
  unfold download_video
  rw [if_neg (by decide : ¬ ((!true) = true))]
  by_cases hd : diskOver90 disk = true
  · rw [if_pos hd]; rfl
  · rw [if_neg hd]
    cases info with
    | err m => rfl
    | ok title d =>
      dsimp only
      by_cases hc : d ≠ 0 ∧ d ≤ 180
      · rw [if_pos hc]; rfl
      · rw [if_neg hc]; rfl

/-- C9 instance: the theorem applied at a concrete state. -/
theorem reclaimAll_clears_tracker_instance :
    (aggressive_cleanup [] [fileA] [(("j1"), ⟨.downloading, 0, none, none, none, 0⟩)]).2.1
        = [] ∧
    (∀ id, (get_download_status
        (aggressive_cleanup [] [fileA]
          [(("j1"), ⟨.downloading, 0, none, none, none, 0⟩)]).2.1 id).1 = .notFound) ∧
    (download_video true [] [fileA] [(("j1"), ⟨.downloading, 0, none, none, none, 0⟩)]
        (some 50) (.ok ("t") 60) (.dlErr ("x")) (some 50) (.dlErr ("x"))).trackerAfterCleanup
        = [] :=
  reclaimAll_clears_tracker [] [fileA] [(("j1"), ⟨.downloading, 0, none, none, none, 0⟩)]
    (some 50) (.ok ("t") 60) (.dlErr ("x")) (some 50) (.dlErr ("x"))

/-- C6: whenever the synchronous download attempt fails (adapter error or no
output file found), the request is not answered with an error response: the
handler falls back to the asynchronous path and returns the job-identifier
response. -/
theorem sync_failure_falls_back (info : InfoResult) (title : String)
    (syncDl : DlOutcome) (wd : Option Nat) (asyncDl : DlOutcome)
    (h : syncFailed syncDl = true) :
    handle_sync_download info title syncDl wd asyncDl
      = .asyncStarted (download_video_async wd info asyncDl) := by
  cases syncDl with
  | files found =>
    cases found with
    | nil => rfl
    | cons f rest => exact absurd h (by simp [syncFailed])
  | dlErr m => rfl
  | exn m => rfl

/-- C6 instance: a failing sync attempt (adapter error) at concrete inputs
returns the async job response. -/
theorem sync_failure_falls_back_instance :
    handle_sync_download (.ok ("t") 60) ("t") (.dlErr ("boom")) (some 50) (.files [fileB])
      = .asyncStarted (download_video_async (some 50) (.ok ("t") 60) (.files [fileB])) :=
  sync_failure_falls_back (.ok ("t") 60) ("t") (.dlErr ("boom")) (some 50) (.files [fileB]) rfl

/-- C1: for a submission that passes the url and disk checks and whose metadata
query succeeds, the request is dispatched to the synchronous inline handler
exactly when the reported duration is truthy (nonzero) and at most 180 seconds,
and to the asynchronous handler otherwise. -/
theorem short_video_routes_sync (faults : List String) (fs : FS) (tracker : Tracker)
    (disk : Option Nat) (t : String) (d : Nat) (syncDl : DlOutcome) (wd : Option Nat)
    (asyncDl : DlOutcome) (hdisk : diskOver90 disk = false) :
    ((download_video true faults fs tracker disk (.ok t d) syncDl wd asyncDl).routed
        = .syncPath ↔ (d ≠ 0 ∧ d ≤ 180)) ∧
    ((download_video true faults fs tracker disk (.ok t d) syncDl wd asyncDl).routed
        = .asyncPath ↔ ¬ (d ≠ 0 ∧ d ≤ 180)) := by
  unfold download_video
  rw [if_neg (by decide : ¬ ((!true) = true)), if_neg (by simp [hdisk])]
  dsimp only
  by_cases hc : d ≠ 0 ∧ d ≤ 180
  · rw [if_pos hc]
    simp [hc]
  · rw [if_neg hc]
    simp [hc]

/-- C1 instance: a 60-second video is dispatched to the synchronous handler. -/
theorem short_video_routes_sync_instance :
    (download_video true [] [] [] (some 50) (.ok ("t") 60) (.dlErr ("x")) (some 50)
        (.dlErr ("x"))).routed = Route.syncPath :=
  (short_video_routes_sync [] [] [] (some 50) ("t") 60 (.dlErr ("x")) (some 50)
      (.dlErr ("x")) rfl).1.mpr (by decide)

/-- C3 counterexample: at a concrete submission the spawned job's complete state
history is `[downloading, completed]`; it is never in the `pending` state, so the
asynchronous path does not create the job in `pending` before handing it to the
worker, and no transition `pending → downloading` ever occurs. -/
theorem async_job_never_pending_cex :
    (download_video_async (some 50) (.ok ("t") 300) (.files [fileB])).states
        = [JobState.downloading, JobState.completed] ∧
    JobState.pending ∉ (download_video_async (some 50) (.ok ("t") 300) (.files [fileB])).states := by
  decide

/-- C3 amended: every asynchronous job is created directly in the `downloading`
state by the worker and transitions `downloading → {completed | error}`: its
complete state history is exactly `[downloading, t]` for a terminal `t`, which
is also its final recorded state, so no state ever follows a terminal one. -/
theorem async_job_state_machine (wd : Option Nat) (info : InfoResult) (dl : DlOutcome) :
    ∃ t, (t = JobState.completed ∨ t = JobState.error) ∧
      (download_video_async wd info dl).states = [JobState.downloading, t] ∧
      (download_video_async wd info dl).finalJob.state = t := by
  unfold download_video_async
  by_cases h85 : diskOver85 wd = true
  · rw [if_pos h85]
    exact ⟨JobState.error, Or.inr rfl, rfl, rfl⟩
  · rw [if_neg h85]
    cases info with
    | err m => exact ⟨JobState.error, Or.inr rfl, rfl, rfl⟩
    | ok title d =>
      dsimp only
      by_cases hc : d ≠ 0 ∧ 600 < d
      · rw [if_pos hc]
        exact ⟨JobState.error, Or.inr rfl, rfl, rfl⟩
      · rw [if_neg hc]
        cases dl with
        | files found =>
          cases found with
          | nil => exact ⟨JobState.error, Or.inr rfl, rfl, rfl⟩
          | cons f rest => exact ⟨JobState.completed, Or.inl rfl, rfl, rfl⟩
        | dlErr m => exact ⟨JobState.error, Or.inr rfl, rfl, rfl⟩
        | exn m => exact ⟨JobState.error, Or.inr rfl, rfl, rfl⟩

/-- C3 amended instance: the theorem applied at a concrete failing download. -/
theorem async_job_state_machine_instance :
    ∃ t, (t = JobState.completed ∨ t = JobState.error) ∧
      (download_video_async (some 10) (.ok ("a") 50) (.dlErr ("x"))).states
        = [JobState.downloading, t] ∧
      (download_video_async (some 10) (.ok ("a") 50) (.dlErr ("x"))).finalJob.state = t :=
  async_job_state_machine (some 10) (.ok ("a") 50) (.dlErr ("x"))

/-- C4 counterexample: with `keepCount = 1` and a single artifact, the claim
demands that all but the `keepCount - 1 = 0` most recent artifacts be deleted,
i.e. that no artifact remain; the code keeps the single most recent file. -/
theorem clean_up_keeps_one_cex :
    clean_up_old_files [] 1 [fileA] = [fileA] ∧
    (listDirFiles (clean_up_old_files [] 1 [fileA])).length ≠ 1 - 1 := by
  decide

/-- C2: a submission that passes the url and disk checks and whose reported
duration exceeds the 600-second cap is routed to the asynchronous path (so the
synchronous path, which the route reserves for durations of at most 180
seconds, never receives an over-cap medium), and the spawned job ends in the
`error` state with the duration-exceeded reason; the download call is never
made, so no partial artifact is retained. -/
theorem duration_cap_enforced (faults : List String) (fs : FS) (tracker : Tracker)
    (disk : Option Nat) (t : String) (d : Nat) (syncDl : DlOutcome) (wd : Option Nat)
    (asyncDl : DlOutcome) (hdisk : diskOver90 disk = false)
    (hwd : diskOver85 wd = false) (hcap : 600 < d) :
    (download_video true faults fs tracker disk (.ok t d) syncDl wd asyncDl).routed
        = .asyncPath ∧
    (download_video true faults fs tracker disk (.ok t d) syncDl wd asyncDl).response
        = .asyncStarted (download_video_async wd (.ok t d) asyncDl) ∧
    (download_video_async wd (.ok t d) asyncDl).finalJob.state = .error ∧
    (download_video_async wd (.ok t d) asyncDl).finalJob.error_msg
        = some (durationExceededMsg d) ∧
    (download_video_async wd (.ok t d) asyncDl).downloadAttempted = false ∧
    (download_video_async wd (.ok t d) asyncDl).artifacts = [] := by
  have hna : ¬ (d ≠ 0 ∧ d ≤ 180) := by omega
  have hdc : d ≠ 0 ∧ 600 < d := by omega
  have hdl : download_video true faults fs tracker disk (.ok t d) syncDl wd asyncDl
      = ⟨handle_async_download (.ok t d) wd asyncDl,
         (aggressive_cleanup faults fs tracker).2.1, .asyncPath⟩ := by
    unfold download_video
    rw [if_neg (by decide : ¬ ((!true) = true)), if_neg (by simp [hdisk])]
    dsimp only
    rw [if_neg hna]
  have hw : download_video_async wd (.ok t d) asyncDl
      = ⟨⟨.error, 0, none, none, some (durationExceededMsg d), 0⟩,
         [.downloading, .error], false, []⟩ := by
    unfold download_video_async
    rw [if_neg (by simp [hwd])]
    dsimp only
    rw [if_pos hdc]
  refine ⟨?_, ?_, ?_, ?_, ?_, ?_⟩
  · rw [hdl]
  · rw [hdl]; rfl
  · rw [hw]
  · rw [hw]
  · rw [hw]
  · rw [hw]

/-- C2 instance: a 700-second submission at concrete inputs. -/
theorem duration_cap_enforced_instance :
    (download_video_async (some 50) (.ok ("t") 700) (.files [fileA])).finalJob.error_msg
        = some (durationExceededMsg 700) ∧
    (download_video_async (some 50) (.ok ("t") 700) (.files [fileA])).artifacts = [] :=
  ⟨(duration_cap_enforced [] [] [] (some 50) ("t") 700 (.dlErr ("x")) (some 50)
      (.files [fileA]) (by decide) (by decide) (by decide)).2.2.2.1,
   (duration_cap_enforced [] [] [] (some 50) ("t") 700 (.dlErr ("x")) (some 50)
      (.files [fileA]) (by decide) (by decide) (by decide)).2.2.2.2.2⟩

/-- C10: with the worker's disk guard passing, the asynchronous worker raises
the duration-exceeded error if and only if the reported duration is truthy
(nonzero) and exceeds 600 seconds; in that case the job errors with the
duration-exceeded reason. A submission with no reported duration (0) is routed
to the asynchronous path (when the route's url and disk checks pass) and its
worker reaches the download call whatever its outcome: no duration limit is
enforced at all. -/
theorem async_duration_iff (wd : Option Nat) (t : String) (d : Nat) (dl : DlOutcome)
    (disk : Option Nat) (faults : List String) (fs : FS) (tracker : Tracker)
    (syncDl : DlOutcome) (asyncDl : DlOutcome) (hwd : diskOver85 wd = false) :
    ((download_video_async wd (.ok t d) dl).downloadAttempted = false
        ↔ (d ≠ 0 ∧ 600 < d)) ∧
    ((d ≠ 0 ∧ 600 < d) →
      (download_video_async wd (.ok t d) dl).finalJob.state = .error ∧
      (download_video_async wd (.ok t d) dl).finalJob.error_msg
        = some (durationExceededMsg d)) ∧
    (d = 0 → diskOver90 disk = false →
      (download_video true faults fs tracker disk (.ok t 0) syncDl wd asyncDl).routed
          = .asyncPath ∧
      (download_video_async wd (.ok t d) dl).downloadAttempted = true) := by
  by_cases hc : d ≠ 0 ∧ 600 < d
  · have hw : download_video_async wd (.ok t d) dl
        = ⟨⟨.error, 0, none, none, some (durationExceededMsg d), 0⟩,
           [.downloading, .error], false, []⟩ := by
      unfold download_video_async
      rw [if_neg (by simp [hwd])]
      dsimp only
      rw [if_pos hc]
    rw [hw]
    exact ⟨by simp [hc], fun _ => ⟨rfl, rfl⟩, fun h0 => absurd h0 hc.1⟩
  · have hw : (download_video_async wd (.ok t d) dl).downloadAttempted = true := by
      unfold download_video_async
      rw [if_neg (by simp [hwd])]
      dsimp only
      rw [if_neg hc]
      cases dl with
      | files found => cases found <;> rfl
      | dlErr m => rfl
      | exn m => rfl
    refine ⟨by rw [hw]; simp [hc], fun h => absurd h hc, fun h0 h90 => ⟨?_, hw⟩⟩
    unfold download_video
    rw [if_neg (by decide : ¬ ((!true) = true)), if_neg (by simp [h90])]
    dsimp only
    rw [if_neg (by simp : ¬ ((0 : Nat) ≠ 0 ∧ (0 : Nat) ≤ 180))]

/-- C10 instance: a 601-second submission never reaches the download call. -/
theorem async_duration_iff_instance :
    (download_video_async none (.ok ("v") 601) (.files [fileB])).downloadAttempted = false :=
  (async_duration_iff none ("v") 601 (.files [fileB]) (some 10) [] [] [] (.dlErr ("y"))
      (.dlErr ("y")) (by decide)).1.mpr (by decide)

/-- Membership bridge between `List.contains` and `∈` for strings. -/
theorem contains_eq_true_iff (l : List String) (a : String) :
    l.contains a = true ↔ a ∈ l := List.elem_iff

/-- The creation-time order is reflexive. -/
theorem ctimeLE_refl : ∀ a : FileEntry, ctimeLE a a := fun a => Nat.le_refl a.ctime

/-- Every element of a reflexively pairwise-ordered list relates to its last
element. -/
theorem pairwise_rel_getLast {α : Type _} {r : α → α → Prop} (hrefl : ∀ a, r a a) :
    ∀ (l : List α) (b : α), l.Pairwise r → l.getLast? = some b → ∀ a ∈ l, r a b := by
  intro l
  induction l with
  | nil => intro b _ hb; exact absurd hb (by simp)
  | cons x l ih =>
    intro b hp hb a ha
    cases l with
    | nil =>
      have hxb : x = b := by
        have h2 : some x = some b := hb
        exact Option.some.inj h2
      rcases List.mem_singleton.mp ha with rfl
      rw [← hxb]
      exact hrefl _
    | cons y l2 =>
      rw [List.getLast?_cons_cons] at hb
      have hbmem : b ∈ y :: l2 := by
        obtain ⟨ys, hys⟩ := List.getLast?_eq_some_iff.mp hb
        rw [hys]
        exact List.mem_append.mpr (Or.inr (List.mem_singleton.mpr rfl))
      rcases List.mem_cons.mp ha with rfl | ha2
      · exact (List.pairwise_cons.mp hp).1 b hbmem
      · exact ih b (List.pairwise_cons.mp hp).2 hb a ha2

/-- C4 amended: when at least `keepCount` artifacts exist and `keepCount` is
positive, `clean_up_old_files` orders the artifacts by creation time ascending
and deletes all but the single most recent one — not all but `keepCount - 1`:
an entry of the directory survives exactly when it is not a regular file, or
its deletion faulted (the fault is skipped and the remaining deletions still
happen), or it is the last artifact in creation-time order; and that last
artifact has maximal creation time among all artifacts. Stated for directories
with pairwise distinct paths. -/
theorem clean_up_old_files_spec (faults : List String) (limit : Int) (fs : FS)
    (hpos : 0 < limit) (hge : limit ≤ ((listDirFiles fs).length : Int))
    (hnd : (fs.map (fun e => e.path)).Nodup) :
    (∀ e, e ∈ clean_up_old_files faults limit fs ↔
      e ∈ fs ∧ (e.isFile = false ∨ e.path ∈ faults ∨
        (sortedByCtime fs).getLast? = some e)) ∧
    (∀ f, (sortedByCtime fs).getLast? = some f →
      ∀ g ∈ listDirFiles fs, g.ctime ≤ f.ctime) := by
  have hperm : (sortedByCtime fs).Perm (listDirFiles fs) :=
    List.perm_insertionSort ctimeLE (listDirFiles fs)
  have hfsnd : fs.Nodup := List.Nodup.of_map _ hnd
  have hfilesnd : (listDirFiles fs).Nodup :=
    List.Nodup.sublist (List.filter_sublist fs) hfsnd
  have hsortnd : (sortedByCtime fs).Nodup := hperm.symm.nodup hfilesnd
  have hinj := List.inj_on_of_nodup_map hnd
  have hlen : 1 ≤ (listDirFiles fs).length := by
    have h1 : (1 : Int) ≤ ((listDirFiles fs).length : Int) := le_trans hpos hge
    exact_mod_cast h1
  have hne : sortedByCtime fs ≠ [] := by
    intro h0
    have hl := hperm.length_eq
    rw [h0] at hl
    rw [← hl] at hlen
    simp at hlen
  have hdecomp : (sortedByCtime fs).dropLast ++ [(sortedByCtime fs).getLast hne]
      = sortedByCtime fs := List.dropLast_append_getLast hne
  have hlast? : (sortedByCtime fs).getLast? = some ((sortedByCtime fs).getLast hne) :=
    List.getLast?_eq_getLast _ hne
  have hlast_not_dropLast :
      (sortedByCtime fs).getLast hne ∉ (sortedByCtime fs).dropLast := by
    intro hmem
    have hnd2 := hsortnd
    rw [← hdecomp] at hnd2
    rcases List.nodup_append.mp hnd2 with ⟨-, -, hdisj⟩
    exact hdisj hmem (List.mem_singleton.mpr rfl)
  have hmem_sorted : ∀ x : FileEntry, x ∈ sortedByCtime fs ↔ x ∈ listDirFiles fs :=
    fun _ => hperm.mem_iff
  have hresult : clean_up_old_files faults limit fs
      = ((sortedByCtime fs).dropLast).foldl
          (fun acc f => if faults.contains f.path then acc else removeFile acc f.path)
          fs := by
    unfold clean_up_old_files
    rw [if_pos hge, if_pos hpos]
  constructor
  · intro e
    rw [hresult, mem_cleanup_old_foldl]
    constructor
    · rintro ⟨he, hall⟩
      refine ⟨he, ?_⟩
      by_cases hf : e.isFile = true
      · by_cases hfa : e.path ∈ faults
        · exact Or.inr (Or.inl hfa)
        · right; right
          have hmemf : e ∈ listDirFiles fs := List.mem_filter.mpr ⟨he, hf⟩
          have hmems : e ∈ sortedByCtime fs := (hmem_sorted e).mpr hmemf
          rw [← hdecomp] at hmems
          rcases List.mem_append.mp hmems with hdrop | hsing
          · exfalso
            have hcf : faults.contains e.path = false := by
              cases hx : faults.contains e.path
              · rfl
              · exact absurd ((contains_eq_true_iff faults e.path).mp hx) hfa
            exact hall e hdrop hcf rfl
          · rw [List.mem_singleton.mp hsing]
            exact hlast?
      · exact Or.inl (Bool.not_eq_true _ ▸ hf)
    · rintro ⟨he, hcase⟩
      refine ⟨he, ?_⟩
      intro f hfdrop hcf hpath
      have hfsorted : f ∈ sortedByCtime fs := by
        rw [← hdecomp]
        exact List.mem_append.mpr (Or.inl hfdrop)
      have hffiles : f ∈ listDirFiles fs := (hmem_sorted f).mp hfsorted
      have hffs : f ∈ fs := (List.mem_filter.mp hffiles).1
      have hffile : f.isFile = true := (List.mem_filter.mp hffiles).2
      have hfe : f = e := hinj hffs he hpath
      rcases hcase with h1 | h1 | h1
      · rw [hfe, h1] at hffile
        exact Bool.noConfusion hffile
      · rw [← hfe] at h1
        have h2 : faults.contains f.path = true := (contains_eq_true_iff faults f.path).mpr h1
        rw [hcf] at h2
        exact Bool.noConfusion h2
      · have he_last : e = (sortedByCtime fs).getLast hne :=
          (Option.some.inj (hlast?.symm.trans h1)).symm
        rw [hfe, he_last] at hfdrop
        exact hlast_not_dropLast hfdrop
  · intro f hf g hg
    have hsorted : List.Pairwise ctimeLE (sortedByCtime fs) :=
      List.sorted_insertionSort ctimeLE (listDirFiles fs)
    have hgs : g ∈ sortedByCtime fs := (hmem_sorted g).mpr hg
    exact pairwise_rel_getLast ctimeLE_refl (sortedByCtime fs) f hsorted hf g hgs

/-- C4 amended instance: with two artifacts and `keepCount = 1`, the older one
is deleted and the newer one is kept. -/
theorem clean_up_old_files_spec_instance :
    fileA ∉ clean_up_old_files [] 1 [fileA, fileB] ∧
    fileB ∈ clean_up_old_files [] 1 [fileA, fileB] := by
  have h := clean_up_old_files_spec [] 1 [fileA, fileB] (by decide) (by decide) (by decide)
  constructor
  · intro hmem
    have h2 := (h.1 fileA).mp hmem
    revert h2
    decide
  · exact (h.1 fileB).mpr (by decide)

/-- The head of a dropWhile result never satisfies the dropped predicate. -/
theorem head?_dropWhile_false {α : Type _} (p : α → Bool) (l : List α) (c : α)
    (h : (l.dropWhile p).head? = some c) : p c = false := by
  have hne : l.dropWhile p ≠ [] := by
    intro hnil
    rw [hnil] at h
    exact Option.noConfusion h
  have hh := List.head_dropWhile_not p l hne
  rw [List.head?_eq_head hne] at h
  rw [Option.some.inj h] at hh
  exact hh

/-- dropWhile preserves the last element of a list when its result is nonempty. -/
theorem getLast?_dropWhile {α : Type _} (p : α → Bool) :
    ∀ (l : List α), l.dropWhile p ≠ [] → (l.dropWhile p).getLast? = l.getLast? := by
  intro l
  induction l with
  | nil => intro h; exact absurd rfl h
  | cons a l ih =>
    intro hne
    by_cases hp : p a = true
    · rw [List.dropWhile_cons, if_pos hp] at hne ⊢
      rw [ih hne]
      cases l with
      | nil => rw [List.dropWhile] at hne; exact absurd rfl hne
      | cons b l2 => rw [List.getLast?_cons_cons]
    · rw [List.dropWhile_cons, if_neg hp]

/-- Characters surviving step 1 of the sanitizer are not path-unsafe. -/
theorem mem_removeBadChars (cs : List Char) (c : Char) (h : c ∈ removeBadChars cs) :
    badChars.contains c = false := by
  unfold removeBadChars at h
  have h2 := (List.mem_filter.mp h).2
  rwa [Bool.not_eq_true'] at h2

/-- Characters of step 2's output are underscores or come from the input. -/
theorem mem_replaceSpaces (cs : List Char) (c : Char) (h : c ∈ replaceSpaces cs) :
    c = '_' ∨ c ∈ cs := by
  unfold replaceSpaces at h
  obtain ⟨a, ha, hac⟩ := List.mem_map.mp h
  by_cases hs : spaceBracketChars.contains a = true
  · rw [if_pos hs] at hac
    exact Or.inl hac.symm
  · rw [if_neg hs] at hac
    exact Or.inr (hac ▸ ha)

/-- Collapsing underscore runs introduces no character. -/
theorem mem_collapseUnderscores : ∀ (cs : List Char) (c : Char),
    c ∈ collapseUnderscores cs → c ∈ cs := by
  intro cs
  induction cs with
  | nil => intro c h; simp [collapseUnderscores] at h
  | cons a rest ih =>
    cases rest with
    | nil => intro c h; simpa [collapseUnderscores] using h
    | cons b rest2 =>
      intro c h
      simp only [collapseUnderscores] at h
      by_cases hu : (a == '_' && b == '_') = true
      · rw [if_pos hu] at h
        exact List.mem_cons_of_mem a (ih c h)
      · rw [if_neg hu] at h
        rcases List.mem_cons.mp h with rfl | h2
        · exact List.mem_cons_self c (b :: rest2)
        · exact List.mem_cons_of_mem a (ih c h2)

/-- Stripping the ends introduces no character. -/
theorem mem_stripEnds (cs : List Char) (c : Char) (h : c ∈ stripEnds cs) : c ∈ cs := by
  unfold stripEnds at h
  rw [List.mem_reverse] at h
  have h2 : c ∈ (cs.dropWhile stripSet).reverse :=
    List.Sublist.mem h (List.dropWhile_sublist stripSet)
  rw [List.mem_reverse] at h2
  exact List.Sublist.mem h2 (List.dropWhile_sublist stripSet)

/-- The first character left by the strip step is not a strippable one. -/
theorem stripEnds_head (cs : List Char) (c : Char)
    (h : (stripEnds cs).head? = some c) : stripSet c = false := by
  unfold stripEnds at h
  rw [List.head?_reverse] at h
  have hne : (cs.dropWhile stripSet).reverse.dropWhile stripSet ≠ [] := by
    intro hnil
    rw [hnil] at h
    exact Option.noConfusion h
  rw [getLast?_dropWhile stripSet _ hne, List.getLast?_reverse] at h
  exact head?_dropWhile_false stripSet cs c h

/-- The last character left by the strip step is not a strippable one. -/
theorem stripEnds_getLast (cs : List Char) (c : Char)
    (h : (stripEnds cs).getLast? = some c) : stripSet c = false := by
  unfold stripEnds at h
  rw [List.getLast?_reverse] at h
  exact head?_dropWhile_false stripSet _ c h

/-- A string built from a nonempty character list is not the empty string. -/
theorem mk_string_ne_empty (l : List Char) (h : l.isEmpty = false) :
    String.mk l ≠ "" := by
  intro hs
  have h0 : l = [] := congrArg String.data hs
  rw [h0] at h
  exact Bool.noConfusion h

/-- C7: for every input title, the sanitized name is nonempty (an empty result
defaults to the fixed placeholder), contains none of the path-unsafe characters
backslash, slash, star, question mark, colon, double quote, angle brackets and
pipe, and neither starts nor ends with a separator (underscore) or a dot. -/
theorem sanitize_filename_safe (s : String) :
    sanitize_filename s ≠ "" ∧
    (∀ c ∈ (sanitize_filename s).data, badChars.contains c = false) ∧
    (∀ c, (sanitize_filename s).data.head? = some c → stripSet c = false) ∧
    (∀ c, (sanitize_filename s).data.getLast? = some c → stripSet c = false) := by
  unfold sanitize_filename
  by_cases he :
      (stripEnds (collapseUnderscores (replaceSpaces (removeBadChars s.data)))).isEmpty = true
  · rw [if_pos he]
    refine ⟨by decide, by decide, ?_, ?_⟩
    · intro c hc
      have h2 : some 'v' = some c := hc
      cases Option.some.inj h2
      decide
    · intro c hc
      have h2 : some 'o' = some c := hc
      cases Option.some.inj h2
      decide
  · rw [if_neg he]
    have he2 :
        (stripEnds (collapseUnderscores (replaceSpaces (removeBadChars s.data)))).isEmpty
          = false := by
      cases hx :
          (stripEnds (collapseUnderscores (replaceSpaces (removeBadChars s.data)))).isEmpty
      · rfl
      · exact absurd hx he
    refine ⟨mk_string_ne_empty _ he2, ?_, ?_, ?_⟩
    · intro c hc
      have h1 := mem_stripEnds _ _ hc
      have h2 := mem_collapseUnderscores _ _ h1
      rcases mem_replaceSpaces _ _ h2 with rfl | h3
      · decide
      · exact mem_removeBadChars _ _ h3
    · intro c hc
      exact stripEnds_head _ _ hc
    · intro c hc
      exact stripEnds_getLast _ _ hc

/-- C7 instance: the theorem applied to a title made of path-unsafe characters,
whitespace and stray separators. -/
theorem sanitize_filename_safe_instance :
    sanitize_filename ("_My/Video:Title?_") ≠ "" ∧
    (∀ c ∈ (sanitize_filename ("_My/Video:Title?_")).data, badChars.contains c = false) ∧
    (∀ c, (sanitize_filename ("_My/Video:Title?_")).data.head? = some c →
      stripSet c = false) ∧
    (∀ c, (sanitize_filename ("_My/Video:Title?_")).data.getLast? = some c →
      stripSet c = false) :=
  sanitize_filename_safe ("_My/Video:Title?_")

end YtDl
